import Mathlib

/-!
# Verification of the algo-trading core (indicators, signal builder, risk
# engine, position monitor, backtest simulator, scheduler)

Shallow embedding of `algo_trading_py`.  Python floats are modelled as exact
rationals (`ℚ`); Python `int` as `ℤ`/`ℕ`; a Python function that can `raise`
is modelled as an `Option`-returning function (`none` = raise); `dict`s are
modelled as association lists.  Each definition carries a comment naming the
source function it embeds.
-/

set_option linter.unusedVariables false

/- Batteries marks the `Rat` field operations `@[irreducible]`, which blocks
elaborator-side evaluation of concrete rational arithmetic; restore the
default reducibility for this verification file. -/
attribute [local semireducible] Rat.mul Rat.add Rat.sub Rat.inv

/-- Order side (`types.py`, `Side = Literal["BUY", "SELL"]`). -/
inductive Side where
  | BUY
  | SELL
deriving DecidableEq, Repr

/-- One OHLCV bar (`types.py::MarketBar` / the normalized bar dicts of
`backtest/engine.py::_load_bars`).  The `open` price is named `op` because
`open` is a Lean keyword. -/
structure Bar where
  time : String
  op : ℚ
  high : ℚ
  low : ℚ
  close : ℚ
  volume : ℚ
deriving DecidableEq, Repr

/-- `types.py::Position` — signed quantity, volume-weighted average price. -/
structure Position where
  symbol : String
  qty : ℤ
  avg_price : ℚ
deriving DecidableEq, Repr

/-- `types.py::Fill`. -/
structure Fill where
  order_id : String
  symbol : String
  side : Side
  qty : ℤ
  price : ℚ
  time : String
deriving DecidableEq, Repr

/-- `persistence/base.py::ManagedPosition` — trailing-stop record. -/
structure ManagedPosition where
  symbol : String
  qty : ℤ
  atr14 : ℚ
  stop_price : ℚ
  highest_price : ℚ
deriving DecidableEq, Repr

/-- `types.py::ScreenerRow` (the as-of indicator snapshot consumed by the
signal builder). -/
structure ScreenerRow where
  symbol : String
  as_of : String
  close : ℚ
  ema20 : ℚ
  ema50 : ℚ
  rsi14 : ℚ
  atr14 : ℚ
  high20 : ℚ
  volume_ratio : ℚ
  adv20 : ℚ
  rs_score_60d : ℚ
deriving DecidableEq, Repr

/-- `types.py::Signal`.  The free-text `reason` field (a formatted string
irrelevant to every claim) is omitted. -/
structure Signal where
  symbol : String
  side : Side
  entry_price : ℚ
  stop_price : ℚ
  target_price : ℚ
  qty : ℤ
  rank_score : ℚ
  atr14 : ℚ
deriving DecidableEq, Repr

/-- `types.py::RiskLimits`. -/
structure RiskLimits where
  max_daily_loss : ℚ
  max_open_positions : ℤ
  max_orders_per_day : ℤ
  max_exposure_per_symbol : ℚ
  risk_per_trade : ℚ
deriving DecidableEq, Repr

/-! ## Association-list helpers (model of Python `dict[str, ...]`) -/

/-- Lookup in an association list (Python `d.get(k)`). -/
def lookupA {α : Type} (l : List (String × α)) (k : String) : Option α :=
  (l.find? (fun p => p.1 == k)).map (·.2)

/-- Remove a key (Python `del d[k]` / `d.pop(k, None)`). -/
def eraseA {α : Type} (l : List (String × α)) (k : String) : List (String × α) :=
  l.filter (fun p => p.1 != k)

/-- Insert-or-replace a key (Python `d[k] = v`). -/
def upsertA {α : Type} (l : List (String × α)) (k : String) (v : α) : List (String × α) :=
  (k, v) :: eraseA l k

/-! ## Indicator library (`utils/indicators.py`)

Each partial Python function appears twice: a total `...Core` carrying the
arithmetic, and an `Option` wrapper reproducing the `raise` guard exactly. -/

/-- `indicators.py::sma`, arithmetic body (`sum(values) / len(values)`). -/
def smaCore (values : List ℚ) : ℚ :=
  values.sum / (values.length : ℚ)

/-- `indicators.py::sma` — raises on empty input. -/
def sma? (values : List ℚ) : Option ℚ :=
  if values = [] then none else some (smaCore values)

/-- `indicators.py::ema`, arithmetic body: seed `sma(values[:period])`, then
fold `current = v*k + current*(1-k)` with `k = 2/(period+1)` over
`values[period:]`. -/
def emaCore (values : List ℚ) (period : ℕ) : ℚ :=
  let k : ℚ := 2 / ((period : ℚ) + 1)
  (values.drop period).foldl (fun current v => v * k + current * (1 - k))
    (smaCore (values.take period))

/-- `indicators.py::ema` — raises when `period <= 1 or len(values) < period`. -/
def ema? (values : List ℚ) (period : ℕ) : Option ℚ :=
  if period ≤ 1 ∨ values.length < period then none else some (emaCore values period)

/-- First differences `values[i] - values[i-1]` for `i = 1..len-1`
(`indicators.py::rsi`, loop over `range(1, len(values))`). -/
def diffsOf (values : List ℚ) : List ℚ :=
  (values.tail.zip values).map (fun p => p.1 - p.2)

/-- Per-step gains `max(diff, 0)` (`indicators.py::rsi`). -/
def gainsOf (values : List ℚ) : List ℚ :=
  (diffsOf values).map (fun d => max d 0)

/-- Per-step losses `max(-diff, 0)` (`indicators.py::rsi`). -/
def lossesOf (values : List ℚ) : List ℚ :=
  (diffsOf values).map (fun d => max (-d) 0)

/-- Wilder smoothing used by both `rsi` and `atr`: seed with
`sma(xs[:period])`, then fold `avg = (avg*(period-1) + x)/period` over
`xs[period:]`. -/
def wilderAvg (period : ℕ) (xs : List ℚ) : ℚ :=
  (xs.drop period).foldl (fun avg x => (avg * ((period : ℚ) - 1) + x) / (period : ℚ))
    (smaCore (xs.take period))

/-- `avg_gain` as computed in `indicators.py::rsi`. -/
def avgGainOf (values : List ℚ) (period : ℕ) : ℚ :=
  wilderAvg period (gainsOf values)

/-- `avg_loss` as computed in `indicators.py::rsi`. -/
def avgLossOf (values : List ℚ) (period : ℕ) : ℚ :=
  wilderAvg period (lossesOf values)

/-- `indicators.py::rsi`, arithmetic body: `100` when `avg_loss == 0`, else
`100 - 100/(1 + avg_gain/avg_loss)`. -/
def rsiCore (values : List ℚ) (period : ℕ) : ℚ :=
  if avgLossOf values period = 0 then 100
  else 100 - 100 / (1 + avgGainOf values period / avgLossOf values period)

/-- `indicators.py::rsi` — raises when `period <= 1 or len(values) < period + 1`. -/
def rsi? (values : List ℚ) (period : ℕ) : Option ℚ :=
  if period ≤ 1 ∨ values.length < period + 1 then none else some (rsiCore values period)

/-- True ranges `max(h-l, |h-pc|, |l-pc|)` for `i = 1..len-1`
(`indicators.py::atr`). -/
def trList (highs lows closes : List ℚ) : List ℚ :=
  ((highs.tail.zip lows.tail).zip closes).map
    (fun x => max (x.1.1 - x.1.2) (max |x.1.1 - x.2| |x.1.2 - x.2|))

/-- `indicators.py::atr`, arithmetic body (same Wilder seed/roll as RSI). -/
def atrCore (highs lows closes : List ℚ) (period : ℕ) : ℚ :=
  wilderAvg period (trList highs lows closes)

/-- `indicators.py::atr` — raises when
`period <= 1 or len(highs) != len(lows) or len(lows) != len(closes) or len(highs) < period + 1`. -/
def atr? (highs lows closes : List ℚ) (period : ℕ) : Option ℚ :=
  if period ≤ 1 ∨ highs.length ≠ lows.length ∨ lows.length ≠ closes.length ∨
      highs.length < period + 1 then none
  else some (atrCore highs lows closes period)

/-- `indicators.py::pct_change`, arithmetic body `(end - start) / start`. -/
def pctChangeCore (start e : ℚ) : ℚ :=
  (e - start) / start

/-- `indicators.py::pct_change` — raises when `start == 0`. -/
def pctChange? (start e : ℚ) : Option ℚ :=
  if start = 0 then none else some (pctChangeCore start e)

/-- Population variance `sum((v - mu)**2) / len` (`indicators.py::std`). -/
def variancePop (values : List ℚ) : ℚ :=
  (values.map (fun v => (v - smaCore values) ^ 2)).sum / (values.length : ℚ)

/-- `indicators.py::std` — returns `0` for fewer than 2 values (no error),
else the population standard deviation.  The square root is irrational, so
this single definition lives in `ℝ`. -/
noncomputable def std (values : List ℚ) : ℝ :=
  if values.length < 2 then 0 else Real.sqrt ((variancePop values : ℚ) : ℝ)

/-! ## Signal builder (`signal/builder.py`) -/

/-- `signal/builder.py::SignalBuilderConfig` (field defaults as in source). -/
structure SignalBuilderConfig where
  min_rsi : ℚ := 55
  breakout_buffer_pct : ℚ := 2/100
  atr_stop_multiple : ℚ := 2
  risk_per_trade : ℚ := 15/1000
  min_capital_deploy_pct : ℚ := 0
  min_adv20 : ℚ := 100000000
  min_volume_ratio : ℚ := 12/10
  max_signals : ℕ := 5
deriving DecidableEq, Repr

/-- Python `int(x)` on a float: truncation toward zero. -/
def ratTrunc (q : ℚ) : ℤ :=
  if 0 ≤ q then ⌊q⌋ else ⌈q⌉

/-- Stable descending insertion used to model Python's stable
`list.sort(key=..., reverse=True)`: an element moves ahead of another only
when its key is strictly larger, so equal keys keep their original order. -/
def insertDescBy {α : Type} (key : α → ℚ) (a : α) : List α → List α
  | [] => [a]
  | b :: t => if key b < key a then a :: b :: t else b :: insertDescBy key a t

/-- Stable sort, descending by `key` (model of Python `sort(reverse=True)`). -/
def sortDescBy {α : Type} (key : α → ℚ) (l : List α) : List α :=
  l.foldl (fun acc a => insertDescBy key a acc) []

/-- The candidate filter of `SignalBuilder.build_signals` (builder.py lines
25-34): `ema20 > ema50`, `close > ema20`,
`close >= high20 * (1 - breakout_buffer_pct)`, `rsi14 >= min_rsi`,
`adv20 >= min_adv20`, `volume_ratio >= min_volume_ratio`. -/
def livePass (cfg : SignalBuilderConfig) (r : ScreenerRow) : Bool :=
  decide (r.ema50 < r.ema20) && decide (r.ema20 < r.close) &&
  decide (r.high20 * (1 - cfg.breakout_buffer_pct) ≤ r.close) &&
  decide (cfg.min_rsi ≤ r.rsi14) && decide (cfg.min_adv20 ≤ r.adv20) &&
  decide (cfg.min_volume_ratio ≤ r.volume_ratio)

/-- `signal/builder.py::SignalBuilder.build_signals`: filter, stable sort
descending by `rs_score_60d`, truncate to `max_signals`, then size each row
(`stop_distance`, `stop`, risk quantity by float floor-division, optional
capital-floor quantity via `int(x + 0.9999)`), dropping rows with
`qty <= 0`. -/
def buildSignals (cfg : SignalBuilderConfig) (rows : List ScreenerRow) (equity : ℚ) :
    List Signal :=
  let candidates := rows.filter (livePass cfg)
  let sorted := sortDescBy (fun r => r.rs_score_60d) candidates
  (sorted.take cfg.max_signals).filterMap (fun r =>
    let entry := r.close
    let stop_distance := max (r.atr14 * cfg.atr_stop_multiple) (entry * (1/100))
    let stop := max (1/100) (entry - stop_distance)
    let cap_risk := equity * cfg.risk_per_trade
    let per_share_risk := max (entry - stop) 1
    let qty_by_risk : ℤ := ⌊cap_risk / per_share_risk⌋
    let qty_by_floor : ℤ :=
      if 0 < cfg.min_capital_deploy_pct then
        ratTrunc (equity * cfg.min_capital_deploy_pct / max entry (1/100) + 9999/10000)
      else 0
    let qty := max qty_by_risk qty_by_floor
    if qty ≤ 0 then none
    else some ⟨r.symbol, Side.BUY, entry, stop, entry + stop_distance * 2, qty,
               r.rs_score_60d, r.atr14⟩)

/-! ## Risk engine (`risk/engine.py`) -/

/-- `risk/engine.py::RiskCheckResult`. -/
structure RiskCheckResult where
  ok : Bool
  reason : String := ""
deriving DecidableEq, Repr

/-- The mutable state of `risk/engine.py::RiskEngine`: the shared position
store plus the process-lifetime counters. -/
structure RiskEngineState where
  positions : List (String × Position)
  orders_today : ℤ
  daily_loss : ℚ
deriving DecidableEq, Repr

/-- The duplicate-holding test of `pre_trade_check`:
`signal.symbol in store.positions and store.positions[signal.symbol].qty > 0`. -/
def holdsPositive (positions : List (String × Position)) (symbol : String) : Bool :=
  match lookupA positions symbol with
  | some p => decide (0 < p.qty)
  | none => false

/-- `risk/engine.py::RiskEngine.pre_trade_check` — five checks in source
order, first failure wins: daily loss, order count, position count,
duplicate holding, exposure. -/
def preTradeCheck (st : RiskEngineState) (limits : RiskLimits) (signal : Signal) :
    RiskCheckResult :=
  if st.daily_loss ≤ -limits.max_daily_loss then
    { ok := false, reason := "Daily loss limit breached" }
  else if limits.max_orders_per_day ≤ st.orders_today then
    { ok := false, reason := "Max orders per day reached" }
  else if limits.max_open_positions ≤ (st.positions.length : ℤ) then
    { ok := false, reason := "Max open positions reached" }
  else if holdsPositive st.positions signal.symbol then
    { ok := false, reason := "Already holding symbol" }
  else if limits.max_exposure_per_symbol < (signal.qty : ℚ) * signal.entry_price then
    { ok := false, reason := "Max exposure per symbol breached" }
  else { ok := true }

/-- Specification-side reading of the risk gate (from the spec's words):
the ordered check list, where the first check whose condition holds
determines the failure reason. -/
def riskChecksList (st : RiskEngineState) (limits : RiskLimits) (signal : Signal) :
    List (Bool × String) :=
  [ (decide (st.daily_loss ≤ -limits.max_daily_loss), "Daily loss limit breached"),
    (decide (limits.max_orders_per_day ≤ st.orders_today), "Max orders per day reached"),
    (decide (limits.max_open_positions ≤ (st.positions.length : ℤ)), "Max open positions reached"),
    (holdsPositive st.positions signal.symbol, "Already holding symbol"),
    (decide (limits.max_exposure_per_symbol < (signal.qty : ℚ) * signal.entry_price),
      "Max exposure per symbol breached") ]

/-- First failing check wins; all passing means ok (spec-side definition,
compared against `preTradeCheck`). -/
def firstFailing (checks : List (Bool × String)) : RiskCheckResult :=
  match checks.find? (fun c => c.1) with
  | some c => { ok := false, reason := c.2 }
  | none => { ok := true }

/-! ## Position monitor (`monitor/position_monitor.py`) -/

/-- The high-water-mark raise and stop ratchet of
`PositionMonitor.evaluate_and_act` (position_monitor.py lines 70-73):
raise `highest_price` only when `ltp` exceeds it, then
`stop_price := max(stop_price, highest_price - atr14 * trailing_atr_multiple)`. -/
def updateTrail (trailing_atr_multiple : ℚ) (m : ManagedPosition) (ltp : ℚ) :
    ManagedPosition :=
  let hp := if m.highest_price < ltp then ltp else m.highest_price
  { m with highest_price := hp,
           stop_price := max m.stop_price (hp - m.atr14 * trailing_atr_multiple) }

/-- One `evaluate_and_act` cycle for a single managed symbol
(position_monitor.py lines 63-83).  Inputs: the backing `Position` (if any)
and the resolved quote (if any; fallback is the position's average price).
Result `none` means the managed record was dropped (missing/flat backing
position, or a stop-out SELL was synthesized); `some m'` means the symbol
stays managed with the ratcheted record. -/
def evalStep (trailing_atr_multiple : ℚ) (m : ManagedPosition)
    (pos? : Option Position) (quote? : Option ℚ) : Option ManagedPosition :=
  match pos? with
  | none => none
  | some pos =>
    if pos.qty ≤ 0 then none
    else
      let ltp := quote?.getD pos.avg_price
      let m' := updateTrail trailing_atr_multiple m ltp
      if m'.stop_price < ltp then some m' else none

/-- A sequence of `evaluate_and_act` cycles for one symbol: each element of
`steps` is that cycle's (backing position, resolved quote). -/
def evalSeq (trailing_atr_multiple : ℚ) (m : ManagedPosition) :
    List (Option Position × Option ℚ) → Option ManagedPosition
  | [] => some m
  | s :: rest =>
      match evalStep trailing_atr_multiple m s.1 s.2 with
      | none => none
      | some m1 => evalSeq trailing_atr_multiple m1 rest

/-- The store-facing state mutated by `PositionMonitor._apply_fill`: the
in-memory position map, the persistence-backend position table, and the
persisted fill log. -/
structure FillState where
  positions : List (String × Position)
  pPositions : List (String × Position)
  pFills : List Fill
deriving DecidableEq, Repr

/-- The signed quantity of a fill (`_apply_fill`:
`fill.qty if fill.side == "BUY" else -fill.qty`). -/
def signedQty (fill : Fill) : ℤ :=
  if fill.side = Side.BUY then fill.qty else -fill.qty

/-- `monitor/position_monitor.py::PositionMonitor._apply_fill`: persist the
fill; then create, delete (when the new signed quantity is ≤ 0) or
VWAP-update the position, mirrored into persistence. -/
def applyFill (st : FillState) (fill : Fill) : FillState :=
  let st0 := { st with pFills := st.pFills ++ [fill] }
  let signed := signedQty fill
  match lookupA st0.positions fill.symbol with
  | none =>
      let nextPos : Position := ⟨fill.symbol, signed, fill.price⟩
      { st0 with positions := upsertA st0.positions fill.symbol nextPos,
                 pPositions := upsertA st0.pPositions fill.symbol nextPos }
  | some existing =>
      let newQty := existing.qty + signed
      if newQty ≤ 0 then
        { st0 with positions := eraseA st0.positions fill.symbol,
                   pPositions := eraseA st0.pPositions fill.symbol }
      else
        let nextPos : Position := ⟨fill.symbol, newQty,
          (existing.avg_price * (existing.qty : ℚ) + fill.price * (signed : ℚ)) / (newQty : ℚ)⟩
        { st0 with positions := upsertA st0.positions fill.symbol nextPos,
                   pPositions := upsertA st0.pPositions fill.symbol nextPos }

/-! ## Scheduler (`ops/scheduler.py`) -/

/-- How a scheduled job body behaves when invoked: it returns normally or
raises with a message (`_try_run`'s `try/except`). -/
inductive JobOutcome where
  | ok
  | err (msg : String)
deriving DecidableEq, Repr

/-- The scheduler's mutable bookkeeping (`TradingScheduler.__init__`):
`last_runs`, `last_errors`, and the fired dedupe-key set `seen`. -/
structure SchedState where
  seen : List String
  last_runs : List (String × String)
  last_errors : List (String × String)
deriving DecidableEq, Repr

/-- The fresh scheduler state (`seen = set()`, empty maps). -/
def schedState0 : SchedState := ⟨[], [], []⟩

/-- `ops/scheduler.py::TradingScheduler._try_run`: skip when the dedupe key
was already seen or `can_run()` is false; otherwise record the key FIRST,
execute, and on success record the run timestamp and clear the job's last
error, on exception record the message.  The returned flag says whether the
job fired. -/
def tryRun (st : SchedState) (job key : String) (canRun : Bool)
    (outcome : JobOutcome) (now : String) : SchedState × Bool :=
  if st.seen.contains key || !canRun then (st, false)
  else
    let st1 : SchedState := { st with seen := key :: st.seen }
    match outcome with
    | JobOutcome.ok =>
        ({ st1 with last_runs := upsertA st1.last_runs job now,
                    last_errors := eraseA st1.last_errors job }, true)
    | JobOutcome.err m =>
        ({ st1 with last_errors := upsertA st1.last_errors job m }, true)

/-- Scheduler configuration (`TradingScheduler.__init__` keyword arguments;
string times as in source). -/
structure SchedulerConfig where
  tick_seconds : ℕ
  monitor_interval_seconds : ℕ
  premarket_at : String := "08:55"
  eod_at : String := "15:31"
  backtest_at : String := "10:30"
  backtest_weekday : String := "Sat"
  strategy_lab_at : String := "11:00"
  strategy_lab_weekday : String := "Sat"
deriving DecidableEq, Repr

/-- The constructor clamps (`max(5, tick_seconds)`,
`max(60, monitor_interval_seconds)`). -/
def initScheduler (tick_seconds monitor_interval_seconds : ℕ) : SchedulerConfig :=
  { tick_seconds := max 5 tick_seconds,
    monitor_interval_seconds := max 60 monitor_interval_seconds }

/-- Zero-padded two-digit rendering, as in `now.strftime("%H:%M")`. -/
def two (n : ℕ) : String :=
  if n < 10 then "0" ++ Nat.repr n else Nat.repr n

/-- `"%H:%M"` of a clock time. -/
def hhmmOf (hour minute : ℕ) : String :=
  two hour ++ ":" ++ two minute

/-- The observations `_tick` takes from the wall clock plus the behavior of
the collaborators during this tick: `can_run()`'s answer and each job
body's outcome.  `weekday`/`date`/`hour`/`minute` are the Asia/Kolkata local
values, `unix` is `time.time()`, `now_iso` the timestamp `_try_run` records. -/
structure TickInput where
  weekday : String
  date : String
  hour : ℕ
  minute : ℕ
  unix : ℕ
  canRun : Bool
  outcome : String → JobOutcome
  now_iso : String

/-- One guarded `_try_run` invocation inside `_tick`, threading the state
and the list of (job, dedupe key) pairs that fired this tick. -/
def tickJob (cond : Bool) (job key : String) (inp : TickInput)
    (acc : SchedState × List (String × String)) : SchedState × List (String × String) :=
  if cond then
    let r := tryRun acc.1 job key inp.canRun (inp.outcome job) inp.now_iso
    (r.1, if r.2 then acc.2 ++ [(job, key)] else acc.2)
  else acc

/-- `ops/scheduler.py::TradingScheduler._in_monitor_window`:
`9*60+20 <= minutes <= 15*60+25`. -/
def inMonitorWindow (hour minute : ℕ) : Bool :=
  decide (9 * 60 + 20 ≤ hour * 60 + minute) && decide (hour * 60 + minute ≤ 15 * 60 + 25)

/-- `ops/scheduler.py::TradingScheduler._tick`: the five guarded jobs in
source order.  The monitor dedupe key is the bucket id
`unix / monitor_interval_seconds` (floor division). -/
def tick (cfg : SchedulerConfig) (st : SchedState) (inp : TickInput) :
    SchedState × List (String × String) :=
  let hhmm := hhmmOf inp.hour inp.minute
  let isWeekday := ["Mon", "Tue", "Wed", "Thu", "Fri"].contains inp.weekday
  let a1 := tickJob (isWeekday && hhmm == cfg.premarket_at)
    "morning" ("morning:" ++ inp.date) inp (st, [])
  let a2 := tickJob (isWeekday && inMonitorWindow inp.hour inp.minute)
    "monitor" ("monitor:" ++ Nat.repr (inp.unix / cfg.monitor_interval_seconds)) inp a1
  let a3 := tickJob (isWeekday && hhmm == cfg.eod_at)
    "eod_close" ("eod:" ++ inp.date) inp a2
  let a4 := tickJob ((inp.weekday == cfg.backtest_weekday) && hhmm == cfg.backtest_at)
    "backtest" ("backtest:" ++ inp.date) inp a3
  tickJob ((inp.weekday == cfg.strategy_lab_weekday) && hhmm == cfg.strategy_lab_at)
    "strategy_lab" ("strategy_lab:" ++ inp.date) inp a4

/-- One abstract `_try_run` invocation (job name, dedupe key, gate answer,
body outcome, timestamp), for trace-level dedupe statements. -/
structure TryCall where
  job : String
  key : String
  canRun : Bool
  outcome : JobOutcome
  now : String

/-- Run a sequence of `_try_run` invocations, returning the dedupe keys
that actually fired, in order. -/
def runTrace (st : SchedState) : List TryCall → List String
  | [] => []
  | c :: rest =>
      (if (tryRun st c.job c.key c.canRun c.outcome c.now).2 then [c.key] else []) ++
        runTrace (tryRun st c.job c.key c.canRun c.outcome c.now).1 rest

/-! ## Backtest simulator (`backtest/engine.py`) -/

/-- `backtest/engine.py::BacktestConfig` (field defaults as in source). -/
structure BacktestConfig where
  from_date : String
  to_date : String
  symbols : List String
  initial_capital : ℚ := 1000000
  max_hold_days : ℕ := 15
  slippage_bps : ℚ := 5
  fee_bps : ℚ := 12
  max_open_positions : ℕ := 5
  min_rsi : ℚ := 55
  breakout_buffer_pct : ℚ := 2/100
  atr_stop_multiple : ℚ := 2
  risk_per_trade : ℚ := 15/1000
  max_results : ℕ := 5
deriving DecidableEq, Repr

/-- One entry candidate built by `_build_candidates` (the dict appended at
engine.py lines 154-163). -/
structure Candidate where
  symbol : String
  entry : ℚ
  stop : ℚ
  target : ℚ
  qty : ℤ
  rank : ℚ
deriving DecidableEq, Repr

/-- Python `s.startswith(p)` (character-level prefix test; `String.startsWith`
is byte-position based and does not evaluate by `decide`, so the character
list is compared directly). -/
def strStartsWith (s p : String) : Bool :=
  p.data.isPrefixOf s.data

/-- Python `l[-n:]`. -/
def lastN {α : Type} (n : ℕ) (l : List α) : List α :=
  l.drop (l.length - n)

/-- Python `max(l)` on a nonempty list (0 for the unreachable empty case). -/
def maxOf (l : List ℚ) : ℚ :=
  match l with
  | [] => 0
  | h :: t => t.foldl max h

/-- `backtest/engine.py::_slippage`: BUY pays up, SELL receives less, by
`bps/10000`. -/
def slippage (price : ℚ) (side : Side) (bps : ℚ) : ℚ :=
  let factor := bps / 10000
  if side = Side.BUY then price * (1 + factor) else price * (1 - factor)

/-- The per-symbol body of `backtest/engine.py::_build_candidates` (lines
126-163): locate the day's bar, require index ≥ 61 and slice length ≥ 80,
compute indicators over the slice, apply the trend/RSI filter and the
breakout test `close >= high20 * (1 + breakout_buffer_pct)` (note the `+`:
this is the test the source performs), then size the trade.  The indicator
`...Core` bodies are used directly: the slice-length guards make every
indicator precondition hold, so the `Option` wrappers would always return
`some`. -/
def candidateFor (day symbol : String) (bars : List Bar) (cfg : BacktestConfig) :
    Option Candidate :=
  match bars.findIdx? (fun b => strStartsWith b.time day) with
  | none => none
  | some idx =>
    if idx < 61 then none else
    let s := bars.take (idx + 1)
    if s.length < 80 then none else
    let closes := s.map Bar.close
    let highs := s.map Bar.high
    let lows := s.map Bar.low
    let volumes := s.map Bar.volume
    let close := closes.getLastD 0
    let ema20 := emaCore closes 20
    let ema50 := emaCore closes 50
    let rsi14 := rsiCore closes 14
    if !(decide (ema20 < close) && decide (ema50 < ema20) && decide (cfg.min_rsi ≤ rsi14)) then
      none
    else
    let high20 := maxOf (lastN 20 highs)
    let breakout := high20 * (1 + cfg.breakout_buffer_pct)
    if close < breakout then none else
    let atr14 := atrCore highs lows closes 14
    let stop := close - atr14 * cfg.atr_stop_multiple
    let risk_per_share := max (close - stop) (1/100)
    let qty : ℤ := max 1 (ratTrunc (cfg.initial_capital * cfg.risk_per_trade / risk_per_share))
    let target := close + (close - stop) * 2
    let rs := pctChangeCore ((lastN 61 closes).headD 0) close
    let vol_ratio := smaCore (lastN 20 volumes) / max 1 (smaCore (lastN 50 volumes))
    some ⟨symbol, close, stop, target, qty, rs * vol_ratio⟩

/-- `backtest/engine.py::_build_candidates`: the per-symbol candidates in
dict order, then the stable descending sort by `rank`. -/
def buildCandidates (day : String) (bars_by_symbol : List (String × List Bar))
    (cfg : BacktestConfig) : List Candidate :=
  sortDescBy (fun c => c.rank)
    (bars_by_symbol.filterMap (fun sb => candidateFor day sb.1 sb.2 cfg))

/-- An open backtest position (the dict stored at engine.py lines 90-96). -/
structure BTPos where
  entry : ℚ
  stop : ℚ
  target : ℚ
  qty : ℤ
  days_held : ℕ
deriving DecidableEq, Repr

/-- The open-position record built for a candidate (engine.py lines 89-96):
the recorded entry is the candidate entry adjusted by BUY slippage; stop,
target and qty are copied from the candidate unchanged. -/
def mkOpenPos (cfg : BacktestConfig) (c : Candidate) : BTPos :=
  ⟨slippage c.entry Side.BUY cfg.slippage_bps, c.stop, c.target, c.qty, 0⟩

/-- `day_map` lookup of `run_backtest` (engine.py line 53): the first bar of
the symbol whose `time[:10]` equals the day. -/
def dayBarFor (bars_by_symbol : List (String × List Bar)) (symbol day : String) :
    Option Bar :=
  (lookupA bars_by_symbol symbol).bind
    (fun bars => bars.find? (fun b => b.time.take 10 == day))

/-- The entries phase of `run_backtest` (engine.py lines 81-96): when below
the position cap, take the top `max_results` candidates and open each one
that is not already held, fits under the cap, and has a bar that day. -/
def entriesStep (cfg : BacktestConfig) (day : String)
    (bars_by_symbol : List (String × List Bar)) (open_pos : List (String × BTPos)) :
    List (String × BTPos) :=
  if open_pos.length < cfg.max_open_positions then
    ((buildCandidates day bars_by_symbol cfg).take cfg.max_results).foldl
      (fun op c =>
        if (lookupA op c.symbol).isSome || decide (cfg.max_open_positions ≤ op.length) then op
        else
          match dayBarFor bars_by_symbol c.symbol day with
          | none => op
          | some _ => upsertA op c.symbol (mkOpenPos cfg c))
      open_pos
  else open_pos

/-! ## Concrete inputs used by the scenario/counterexample theorems -/

/-- A backtest configuration: the required dates/symbols plus every default
of `BacktestConfig` (`slippage_bps = 5`, `breakout_buffer_pct = 0.02`,
`min_rsi = 55`, `atr_stop_multiple = 2`, `risk_per_trade = 0.015`). -/
def btCfg : BacktestConfig :=
  { from_date := "D0", to_date := "E99", symbols := ["AAA", "BBB"] }

/-- 82 daily bars with strictly rising closes and `high = close` (valid OHLC:
the high is an upper bound of the close).  The final bar, dated `"D81"`,
has `close = 181`, `ema20 < close`, `ema50 < ema20`, `rsi14 = 100`, and the
close equals the 20-day high — a textbook live-filter breakout. -/
def risingBars : List Bar :=
  (List.range 82).map (fun i =>
    { time := "D" ++ Nat.repr i, op := (100 + i : ℚ), high := (100 + i : ℚ),
      low := (99 + i : ℚ), close := (100 + i : ℚ), volume := 1000 })

/-- 82 daily bars with rising closes but `high = close - 40` (the recorded
highs sit far below the closes, so the source's `close >= high20 * 1.02`
breakout test can pass and a candidate is actually produced):
final close 181, `atr14 = 49`, `high20 = 141`. -/
def gapBars : List Bar :=
  (List.range 82).map (fun i =>
    { time := "E" ++ Nat.repr i, op := (100 + i : ℚ), high := (60 + i : ℚ),
      low := (50 + i : ℚ), close := (100 + i : ℚ), volume := 1000 })

/-- The single candidate `_build_candidates` yields for `gapBars` on day
`"E81"`: entry 181 (the raw close), stop `181 - 49*2 = 83`,
target `181 + (181-83)*2 = 377`, qty `max(1, int(15000/98)) = 153`,
rank `(60/121) * 1`. -/
def c2Candidate : Candidate :=
  ⟨"BBB", 181, 83, 377, 153, 60/121⟩

/-- All-default signal builder configuration (`min_rsi = 55`,
`atr_stop_multiple = 2`, `risk_per_trade = 0.015`, no capital floor). -/
def c5Cfg : SignalBuilderConfig := {}

/-- The qualifying screener row of the Signal Builder scenario:
`close = 100`, `atr14 = 2`, `high20 = 101`, plus passing values for the
remaining filter fields. -/
def c5Row : ScreenerRow :=
  { symbol := "SYM", as_of := "2024-01-02", close := 100, ema20 := 95, ema50 := 90,
    rsi14 := 60, atr14 := 2, high20 := 101, volume_ratio := 13/10,
    adv20 := 200000000, rs_score_60d := 1/2 }

/-- Risk limits with `max_open_positions = 0` and `max_daily_loss = 0`
(every other field permissive). -/
def c4Limits : RiskLimits :=
  { max_daily_loss := 0, max_open_positions := 0, max_orders_per_day := 5,
    max_exposure_per_symbol := 1000000, risk_per_trade := 15/1000 }

/-- A freshly constructed risk engine: no positions, no orders, zero
accumulated daily loss. -/
def c4State : RiskEngineState :=
  { positions := [], orders_today := 0, daily_loss := 0 }

/-- An arbitrary concrete entry signal. -/
def c4Signal : Signal :=
  { symbol := "SYM", side := Side.BUY, entry_price := 100, stop_price := 96,
    target_price := 108, qty := 10, rank_score := 0, atr14 := 2 }

/-- Fifteen strictly increasing values: every first difference is positive,
so Wilder's average loss is exactly zero. -/
def c6Vals : List ℚ :=
  [1, 2, 3, 4, 5, 6, 7, 8, 9, 10, 11, 12, 13, 14, 15]

/-- Scheduler tick observed at 09:20 Asia/Kolkata on a Monday;
`unix = 300000000` is divisible by 300, so the monitor bucket is 1000000.
`can_run()` answers true and every job body succeeds. -/
def c8Tick1 : TickInput :=
  { weekday := "Mon", date := "2024-01-01", hour := 9, minute := 20,
    unix := 300000000, canRun := true, outcome := fun _ => JobOutcome.ok,
    now_iso := "T1" }

/-- A second tick one minute later (09:21, `unix = 300000060`): same
5-minute bucket 1000000. -/
def c8Tick2 : TickInput :=
  { weekday := "Mon", date := "2024-01-01", hour := 9, minute := 21,
    unix := 300000060, canRun := true, outcome := fun _ => JobOutcome.ok,
    now_iso := "T2" }

/-! ## Helper lemmas -/

theorem lookupA_upsertA_self {α : Type} (l : List (String × α)) (k : String) (v : α) :
    lookupA (upsertA l k v) k = some v := by
  simp [lookupA, upsertA, List.find?]

theorem lookupA_eraseA_self {α : Type} (l : List (String × α)) (k : String) :
    lookupA (eraseA l k) k = none := by
  induction l with
  | nil => rfl
  | cons a t ih =>
    simp only [eraseA, List.filter_cons] at *
    by_cases hek : a.1 = k
    · simp [hek, ih]
    · simp [lookupA, List.find?, hek, ih]

theorem mem_insertDescBy {α : Type} (key : α → ℚ) (a b : α) (l : List α) :
    a ∈ insertDescBy key b l ↔ a = b ∨ a ∈ l := by
  induction l with
  | nil => simp [insertDescBy]
  | cons c t ih =>
    simp only [insertDescBy]
    split
    · simp
    · simp only [List.mem_cons, ih]
      tauto

theorem mem_sortDescBy_foldl {α : Type} (key : α → ℚ) (l acc : List α) (a : α) :
    a ∈ l.foldl (fun acc x => insertDescBy key x acc) acc ↔ a ∈ acc ∨ a ∈ l := by
  induction l generalizing acc with
  | nil => simp
  | cons c t ih =>
    simp only [List.foldl_cons, ih, mem_insertDescBy, List.mem_cons]
    tauto

theorem mem_sortDescBy {α : Type} (key : α → ℚ) (l : List α) (a : α) :
    a ∈ sortDescBy key l ↔ a ∈ l := by
  simp [sortDescBy, mem_sortDescBy_foldl]

theorem smaCore_nonneg (l : List ℚ) (h : ∀ x ∈ l, 0 ≤ x) : 0 ≤ smaCore l := by
  unfold smaCore
  exact div_nonneg (List.sum_nonneg h) (by positivity)

theorem smaCore_zeros (l : List ℚ) (h : ∀ x ∈ l, x = 0) : smaCore l = 0 := by
  unfold smaCore
  rw [List.sum_eq_zero h]
  simp

theorem wilder_fold_nonneg (p : ℕ) (hp : 2 ≤ p) (l : List ℚ) (a : ℚ)
    (ha : 0 ≤ a) (hl : ∀ x ∈ l, 0 ≤ x) :
    0 ≤ l.foldl (fun avg x => (avg * ((p : ℚ) - 1) + x) / (p : ℚ)) a := by
  induction l generalizing a with
  | nil => simpa using ha
  | cons c t ih =>
    simp only [List.foldl_cons]
    apply ih
    · have hp' : (2 : ℚ) ≤ (p : ℚ) := by exact_mod_cast hp
      have hpm : (0 : ℚ) ≤ (p : ℚ) - 1 := by linarith
      have hc : 0 ≤ c := hl c (by simp)
      apply div_nonneg
      · nlinarith [mul_nonneg ha hpm]
      · linarith
    · intro x hx
      exact hl x (by simp [hx])

theorem wilder_fold_zeros (p : ℕ) (l : List ℚ) (hl : ∀ x ∈ l, x = 0) :
    l.foldl (fun avg x => (avg * ((p : ℚ) - 1) + x) / (p : ℚ)) 0 = 0 := by
  induction l with
  | nil => rfl
  | cons c t ih =>
    have hc : c = 0 := hl c (by simp)
    simp only [List.foldl_cons, hc]
    simpa using ih (fun x hx => hl x (by simp [hx]))

theorem wilderAvg_nonneg (p : ℕ) (hp : 2 ≤ p) (xs : List ℚ)
    (h : ∀ x ∈ xs, 0 ≤ x) : 0 ≤ wilderAvg p xs := by
  unfold wilderAvg
  apply wilder_fold_nonneg p hp
  · exact smaCore_nonneg _ (fun x hx => h x (List.take_subset _ _ hx))
  · exact fun x hx => h x (List.drop_subset _ _ hx)

theorem wilderAvg_zeros (p : ℕ) (xs : List ℚ) (h : ∀ x ∈ xs, x = 0) :
    wilderAvg p xs = 0 := by
  unfold wilderAvg
  rw [smaCore_zeros _ (fun x hx => h x (List.take_subset _ _ hx))]
  exact wilder_fold_zeros p _ (fun x hx => h x (List.drop_subset _ _ hx))

theorem gainsOf_nonneg (values : List ℚ) : ∀ x ∈ gainsOf values, 0 ≤ x := by
  intro x hx
  simp only [gainsOf, List.mem_map] at hx
  obtain ⟨d, _, rfl⟩ := hx
  exact le_max_right d 0

theorem lossesOf_nonneg (values : List ℚ) : ∀ x ∈ lossesOf values, 0 ≤ x := by
  intro x hx
  simp only [lossesOf, List.mem_map] at hx
  obtain ⟨d, _, rfl⟩ := hx
  exact le_max_right (-d) 0

theorem lossesOf_zeros_of_diffs_nonneg (values : List ℚ)
    (h : ∀ d ∈ diffsOf values, 0 ≤ d) : ∀ x ∈ lossesOf values, x = 0 := by
  intro x hx
  simp only [lossesOf, List.mem_map] at hx
  obtain ⟨d, hd, rfl⟩ := hx
  have := h d hd
  simp [max_eq_right, neg_nonpos.mpr this]

theorem updateTrail_stop_mono (mult : ℚ) (m : ManagedPosition) (ltp : ℚ) :
    m.stop_price ≤ (updateTrail mult m ltp).stop_price := by
  simp only [updateTrail]
  exact le_max_left _ _

theorem evalStep_stop_mono (mult : ℚ) (m m' : ManagedPosition)
    (pos? : Option Position) (quote? : Option ℚ)
    (h : evalStep mult m pos? quote? = some m') :
    m.stop_price ≤ m'.stop_price := by
  unfold evalStep at h
  cases pos? with
  | none => cases h
  | some pos =>
    simp only at h
    split at h
    · cases h
    · split at h
      · cases h
        exact updateTrail_stop_mono mult m _
      · cases h

theorem evalSeq_stop_mono (mult : ℚ) (m m' : ManagedPosition)
    (steps : List (Option Position × Option ℚ))
    (h : evalSeq mult m steps = some m') :
    m.stop_price ≤ m'.stop_price := by
  induction steps generalizing m with
  | nil =>
    unfold evalSeq at h
    injection h with h
    exact h ▸ le_refl _
  | cons s rest ih =>
    unfold evalSeq at h
    split at h
    · cases h
    · rename_i m1 hstep
      exact le_trans (evalStep_stop_mono mult m m1 s.1 s.2 hstep) (ih m1 h)

theorem ite_none_iff {α : Type} (c : Prop) [Decidable c] (x : α) :
    (if c then (none : Option α) else some x) = none ↔ c := by
  split <;> simp_all

theorem candidateFor_shape (day symbol : String) (bars : List Bar)
    (cfg : BacktestConfig) (c : Candidate)
    (h : candidateFor day symbol bars cfg = some c) :
    c.target = c.entry + (c.entry - c.stop) * 2 ∧
    c.qty = max 1 (ratTrunc (cfg.initial_capital * cfg.risk_per_trade /
      max (c.entry - c.stop) (1/100))) := by
  unfold candidateFor at h
  split at h
  · cases h
  · split at h
    · cases h
    · simp only [] at h
      split at h
      · cases h
      · split at h
        · cases h
        · split at h
          · cases h
          · injection h with h
            subst h
            exact ⟨rfl, rfl⟩

theorem tryRun_cases (st : SchedState) (job key : String) (canRun : Bool)
    (outcome : JobOutcome) (now : String) :
    tryRun st job key canRun outcome now = (st, false) ∨
    (¬ key ∈ st.seen ∧ (tryRun st job key canRun outcome now).1.seen = key :: st.seen ∧
      (tryRun st job key canRun outcome now).2 = true) := by
  by_cases hc : (st.seen.contains key || !canRun) = true
  · left
    unfold tryRun
    rw [if_pos hc]
  · right
    have hnc : ¬ key ∈ st.seen := by
      intro hk
      exact hc (by simp [hk])
    refine ⟨hnc, ?_, ?_⟩ <;>
      (unfold tryRun; rw [if_neg hc]; cases outcome <;> rfl)

theorem runTrace_count_zero (st : SchedState) (calls : List TryCall) (k : String)
    (hk : k ∈ st.seen) : (runTrace st calls).count k = 0 := by
  induction calls generalizing st with
  | nil => rfl
  | cons c rest ih =>
    unfold runTrace
    rcases tryRun_cases st c.job c.key c.canRun c.outcome c.now with h | ⟨hns, hseen, hf⟩
    · rw [h]
      simpa using ih st hk
    · have hkk : ¬ c.key = k := fun he => hns (he ▸ hk)
      rw [hf]
      have hmem : k ∈ (tryRun st c.job c.key c.canRun c.outcome c.now).1.seen := by
        rw [hseen]; exact List.mem_cons_of_mem _ hk
      simp [List.count_cons, hkk, ih _ hmem]

theorem runTrace_count_le_one (st : SchedState) (calls : List TryCall) (k : String) :
    (runTrace st calls).count k ≤ 1 := by
  induction calls generalizing st with
  | nil => simp [runTrace]
  | cons c rest ih =>
    unfold runTrace
    rcases tryRun_cases st c.job c.key c.canRun c.outcome c.now with h | ⟨hns, hseen, hf⟩
    · rw [h]
      simpa using ih st
    · rw [hf]
      by_cases hkk : c.key = k
      · subst hkk
        have hmem : c.key ∈ (tryRun st c.job c.key c.canRun c.outcome c.now).1.seen := by
          rw [hseen]; exact List.mem_cons_self _ _
        simp [List.count_cons, runTrace_count_zero _ rest c.key hmem]
      · simpa [List.count_cons, hkk] using ih _

theorem le_foldl_max (t : List ℚ) (acc x : ℚ) (h : x ≤ acc ∨ x ∈ t) :
    x ≤ t.foldl max acc := by
  induction t generalizing acc with
  | nil => simpa using h
  | cons c r ih =>
    simp only [List.foldl_cons]
    rcases h with h | h
    · exact ih (max acc c) (Or.inl (le_trans h (le_max_left _ _)))
    · rcases List.mem_cons.mp h with rfl | hr
      · exact ih _ (Or.inl (le_max_right _ _))
      · exact ih _ (Or.inr hr)

theorem mem_le_maxOf (l : List ℚ) (x : ℚ) (hx : x ∈ l) : x ≤ maxOf l := by
  match l with
  | [] => cases hx
  | h :: t =>
    show x ≤ t.foldl max h
    rcases List.mem_cons.mp hx with rfl | ht
    · exact le_foldl_max t x x (Or.inl le_rfl)
    · exact le_foldl_max t h x (Or.inr ht)

theorem close_lt_breakout (s : List Bar) (buf : ℚ) (hbuf : 0 < buf) (hne : s ≠ [])
    (hgood : ∀ b ∈ s, 0 < b.close ∧ b.close ≤ b.high) (hlen : 20 ≤ s.length) :
    (s.map Bar.close).getLastD 0 <
      maxOf (lastN 20 (s.map Bar.high)) * (1 + buf) := by
  rcases List.eq_nil_or_concat s with rfl | ⟨l', b, rfl⟩
  · exact absurd rfl hne
  · simp only [List.concat_eq_append] at hne hgood hlen ⊢
    have hmem : b ∈ l' ++ [b] := List.mem_append_right _ (by simp)
    obtain ⟨hpos, hch⟩ := hgood b hmem
    have hclose : ((l' ++ [b]).map Bar.close).getLastD 0 = b.close := by
      rw [List.map_append]
      exact List.getLastD_concat _ _ _
    have hhigh_mem : b.high ∈ lastN 20 ((l' ++ [b]).map Bar.high) := by
      unfold lastN
      rw [List.map_append]
      have hlen' : (l'.map Bar.high ++ [b].map Bar.high).length - 20 ≤
          (l'.map Bar.high).length := by
        simp only [List.length_append, List.length_map, List.length_singleton]
        simp only [List.length_append, List.length_singleton] at hlen
        omega
      rw [List.drop_append_of_le_length hlen']
      simp
    have hle : b.high ≤ maxOf (lastN 20 ((l' ++ [b]).map Bar.high)) :=
      mem_le_maxOf _ _ hhigh_mem
    rw [hclose]
    nlinarith [mul_nonneg (sub_nonneg.mpr (le_trans hch hle)) hbuf.le]

/-- On OHLC data satisfying the bar invariant `close ≤ high` with positive
closes, the `_build_candidates` breakout test
`close ≥ high20 * (1 + breakout_buffer_pct)` can never pass (the current
bar's high sits in the 20-day-high window), so no symbol is ever eligible:
the backtest's entry filter is unsatisfiable on valid data. -/
theorem candidateFor_none_on_valid_ohlc (day symbol : String) (bars : List Bar)
    (cfg : BacktestConfig) (hbuf : 0 < cfg.breakout_buffer_pct)
    (hb : ∀ b ∈ bars, 0 < b.close ∧ b.close ≤ b.high) :
    candidateFor day symbol bars cfg = none := by
  unfold candidateFor
  split
  · rfl
  · rename_i idx hfind
    split
    · rfl
    · rename_i h61
      dsimp only
      split
      · rfl
      · rename_i hlen
        split
        · rfl
        · rename_i htrend
          have hne : bars.take (idx + 1) ≠ [] := by
            intro hnil
            rw [hnil] at hlen
            simp at hlen
          have hgood : ∀ b ∈ bars.take (idx + 1), 0 < b.close ∧ b.close ≤ b.high :=
            fun b hbm => hb b (List.take_subset _ _ hbm)
          have hlen20 : 20 ≤ (bars.take (idx + 1)).length := by omega
          rw [if_pos (close_lt_breakout (bars.take (idx + 1))
            cfg.breakout_buffer_pct hbuf hne hgood hlen20)]

theorem buildCandidates_empty_on_valid_ohlc (day : String)
    (bbs : List (String × List Bar)) (cfg : BacktestConfig)
    (hbuf : 0 < cfg.breakout_buffer_pct)
    (hb : ∀ sb ∈ bbs, ∀ b ∈ sb.2, 0 < b.close ∧ b.close ≤ b.high) :
    buildCandidates day bbs cfg = [] := by
  unfold buildCandidates
  have hmap : bbs.filterMap (fun sb => candidateFor day sb.1 sb.2 cfg) = [] := by
    rw [List.filterMap_eq_nil_iff]
    intro sb hsb
    exact candidateFor_none_on_valid_ohlc day sb.1 sb.2 cfg hbuf (hb sb hsb)
  rw [hmap]
  rfl

/-! ## Claim theorems -/

set_option maxRecDepth 100000 in
/-- C1 (code bug): the spec says the backtest recomputes eligibility with
the *same* trend/RSI/breakout filter as the live signal builder
(`close ≥ high20 * (1 - bufferPct)`), but `_build_candidates` tests
`close ≥ high20 * (1 + bufferPct)`.  Concretely: on `risingBars` the final
day passes the live filter — `ema20 < close`, `ema50 < ema20`,
`rsi14 ≥ minRsi`, and `close ≥ high20 * (1 - bufferPct)` — yet the backtest
yields no candidate at all. -/
theorem backtest_breakout_direction_bug :
    buildCandidates "D81" [("AAA", risingBars)] btCfg = [] ∧
    (emaCore (risingBars.map Bar.close) 50 < emaCore (risingBars.map Bar.close) 20 ∧
     emaCore (risingBars.map Bar.close) 20 < (risingBars.map Bar.close).getLastD 0 ∧
     btCfg.min_rsi ≤ rsiCore (risingBars.map Bar.close) 14 ∧
     maxOf (lastN 20 (risingBars.map Bar.high)) * (1 - btCfg.breakout_buffer_pct) ≤
       (risingBars.map Bar.close).getLastD 0) := by
  constructor
  · decide
  · refine ⟨by decide, by decide, by decide, by decide⟩

set_option maxRecDepth 100000 in
/-- C2 (counterexample): the claim computes target and quantity from the
slippage-adjusted entry; the code computes them from the raw close before
applying slippage.  On `gapBars`, day `"E81"`, the simulator opens a
position with recorded entry `181 * 1.0005 = 362181/2000`, stop 83 and
target 377 — and `377 ≠ entry + (entry - stop) * 2` for that recorded
entry. -/
theorem backtest_entry_fields_counterexample :
    entriesStep btCfg "E81" [("BBB", gapBars)] [] =
      [("BBB", { entry := 362181/2000, stop := 83, target := 377, qty := 153,
                 days_held := 0 })] ∧
    ¬ ((377 : ℚ) = 362181/2000 + (362181/2000 - 83) * 2) := by
  constructor
  · decide
  · decide

/-- C2 (amended): for every candidate the backtest builds, the target and
quantity are computed from the candidate's raw close (`c.entry`), not from
the slippage-adjusted entry: `target = entry + (entry - stop) * 2` and
`qty = max(1, int(initialCapital * riskPerTrade / max(entry - stop, 0.01)))`
with `entry` the pre-slippage close; the opened record then stores the
BUY-slippage-adjusted close as its entry and copies stop/target/qty
unchanged. -/
theorem backtest_candidate_fields (day : String) (bbs : List (String × List Bar))
    (cfg : BacktestConfig) (c : Candidate) (hc : c ∈ buildCandidates day bbs cfg) :
    c.target = c.entry + (c.entry - c.stop) * 2 ∧
    c.qty = max 1 (ratTrunc (cfg.initial_capital * cfg.risk_per_trade /
      max (c.entry - c.stop) (1/100))) ∧
    mkOpenPos cfg c =
      { entry := slippage c.entry Side.BUY cfg.slippage_bps, stop := c.stop,
        target := c.target, qty := c.qty, days_held := 0 } := by
  rw [buildCandidates, mem_sortDescBy] at hc
  rw [List.mem_filterMap] at hc
  obtain ⟨sb, _, hsome⟩ := hc
  obtain ⟨h1, h2⟩ := candidateFor_shape day sb.1 sb.2 cfg c hsome
  exact ⟨h1, h2, rfl⟩

set_option maxRecDepth 100000 in
/-- C2 (witness): the amended statement applied to the concrete candidate
built from `gapBars`. -/
theorem backtest_candidate_fields_witness :
    c2Candidate.target = c2Candidate.entry + (c2Candidate.entry - c2Candidate.stop) * 2 ∧
    c2Candidate.qty = max 1 (ratTrunc (btCfg.initial_capital * btCfg.risk_per_trade /
      max (c2Candidate.entry - c2Candidate.stop) (1/100))) ∧
    mkOpenPos btCfg c2Candidate =
      { entry := slippage c2Candidate.entry Side.BUY btCfg.slippage_bps,
        stop := c2Candidate.stop, target := c2Candidate.target,
        qty := c2Candidate.qty, days_held := 0 } :=
  backtest_candidate_fields "E81" [("BBB", gapBars)] btCfg c2Candidate (by decide)

/-- C3: for a held symbol the stored stop is monotonically non-decreasing
across any sequence of `evaluate_and_act` cycles — whenever the record
survives a sequence of cycles, its stop is at least the original stop —
and the spec's scenario holds: `highestPrice = 110`, `atr14 = 2`,
`trailingAtrMultiple = 2`, new quote 108 keeps `highestPrice = 110` and
ratchets a stop of 104 up to `110 - 4 = 106`. -/
theorem trailing_stop_monotone :
    (∀ (mult : ℚ) (m m' : ManagedPosition) (steps : List (Option Position × Option ℚ)),
      evalSeq mult m steps = some m' → m.stop_price ≤ m'.stop_price) ∧
    updateTrail 2 ⟨"SYM2", 10, 2, 104, 110⟩ 108 = ⟨"SYM2", 10, 2, 106, 110⟩ := by
  constructor
  · intro mult m m' steps h
    exact evalSeq_stop_mono mult m m' steps h
  · decide

/-- C3 (witness): one full monitor cycle at quote 108 for the scenario
record (backing position of 10 shares) keeps the symbol managed and the
conclusion `104 ≤ 106` is delivered by the theorem. -/
theorem trailing_stop_monotone_witness : (104 : ℚ) ≤ 106 :=
  trailing_stop_monotone.1 2 ⟨"SYM3", 10, 2, 104, 110⟩ ⟨"SYM3", 10, 2, 106, 110⟩
    [(some ⟨"SYM3", 10, 100⟩, some 108)] (by decide)

/-- C4 (counterexample): with `max_open_positions = 0` but also
`max_daily_loss = 0`, a fresh engine (daily loss 0) fails the FIRST check
(`0 ≤ -0`), so the reason is "Daily loss limit breached", not
"Max open positions reached" — the claim's "regardless of the other limit
fields and the engine's counters" is false. -/
theorem risk_zero_cap_counterexample :
    c4Limits.max_open_positions = 0 ∧
    preTradeCheck c4State c4Limits c4Signal =
      { ok := false, reason := "Daily loss limit breached" } ∧
    ({ ok := false, reason := "Daily loss limit breached" } : RiskCheckResult) ≠
      { ok := false, reason := "Max open positions reached" } := by
  refine ⟨rfl, by decide, by decide⟩

/-- C4 (amended): the checks run in the fixed order daily-loss, order-count,
position-count, duplicate-holding, exposure with the first failing check
determining the reason (`preTradeCheck` equals the first-failure fold of
the ordered check list); and with `maxOpenPositions = 0` every call on
which the two earlier checks pass returns not-ok with reason
"Max open positions reached", regardless of the store, the remaining limit
fields and the signal. -/
theorem risk_checks_order_and_zero_cap :
    (∀ (st : RiskEngineState) (limits : RiskLimits) (signal : Signal),
      preTradeCheck st limits signal = firstFailing (riskChecksList st limits signal)) ∧
    (∀ (st : RiskEngineState) (limits : RiskLimits) (signal : Signal),
      limits.max_open_positions ≤ 0 →
      -limits.max_daily_loss < st.daily_loss →
      st.orders_today < limits.max_orders_per_day →
      preTradeCheck st limits signal =
        { ok := false, reason := "Max open positions reached" }) := by
  constructor
  · intro st limits signal
    by_cases h1 : st.daily_loss ≤ -limits.max_daily_loss <;>
      by_cases h2 : limits.max_orders_per_day ≤ st.orders_today <;>
      by_cases h3 : limits.max_open_positions ≤ (st.positions.length : ℤ) <;>
      cases h4 : holdsPositive st.positions signal.symbol <;>
      by_cases h5 : limits.max_exposure_per_symbol < (signal.qty : ℚ) * signal.entry_price <;>
      simp [preTradeCheck, firstFailing, riskChecksList, h1, h2, h3, h4, h5]
  · intro st limits signal hcap hdl hoc
    have h1 : ¬ st.daily_loss ≤ -limits.max_daily_loss := by linarith
    have h2 : ¬ limits.max_orders_per_day ≤ st.orders_today := by omega
    have h3 : limits.max_open_positions ≤ (st.positions.length : ℤ) := by
      have : (0 : ℤ) ≤ (st.positions.length : ℤ) := Int.ofNat_nonneg _
      omega
    simp [preTradeCheck, h1, h2, h3]

/-- C4 (witness): concrete instantiation of the amended statement — limits
with `max_open_positions = 0` and permissive earlier limits give exactly
the claimed reason. -/
theorem risk_checks_order_witness :
    preTradeCheck c4State
      { max_daily_loss := 100, max_open_positions := 0, max_orders_per_day := 5,
        max_exposure_per_symbol := 1000000, risk_per_trade := 15/1000 } c4Signal =
      { ok := false, reason := "Max open positions reached" } :=
  risk_checks_order_and_zero_cap.2 c4State
    { max_daily_loss := 100, max_open_positions := 0, max_orders_per_day := 5,
      max_exposure_per_symbol := 1000000, risk_per_trade := 15/1000 } c4Signal
    (by decide) (by norm_num [c4State]) (by decide)

/-- C5: the Signal Builder scenario — one qualifying row with `close = 100`,
`atr14 = 2`, `high20 = 101`, equity 1,000,000, `riskPerTrade = 0.015`,
`atrStopMultiple = 2` produces exactly one signal with stop
`100 - max(4, 1) = 96`, target `100 + 4*2 = 108` and qty
`floor(15000/4) = 3750`. -/
theorem signal_builder_scenario :
    buildSignals c5Cfg [c5Row] 1000000 =
      [{ symbol := "SYM", side := Side.BUY, entry_price := 100, stop_price := 96,
         target_price := 108, qty := 3750, rank_score := 1/2, atr14 := 2 }] := by
  decide

/-- C6: whenever `rsi` accepts its input (`period > 1`,
`len(values) ≥ period + 1`), the result lies in `[0, 100]`; it equals
exactly 100 whenever the Wilder-smoothed average loss is exactly 0, and in
particular whenever every first difference is non-negative. -/
theorem rsi_bounded_and_zero_loss (values : List ℚ) (period : ℕ) (r : ℚ)
    (h : rsi? values period = some r) :
    (0 ≤ r ∧ r ≤ 100) ∧ (avgLossOf values period = 0 → r = 100) ∧
      ((∀ d ∈ diffsOf values, 0 ≤ d) → r = 100) := by
  unfold rsi? at h
  split at h
  · cases h
  · rename_i hguard
    push_neg at hguard
    have hp : 2 ≤ period := by omega
    injection h with h
    subst h
    unfold rsiCore
    by_cases hz : avgLossOf values period = 0
    · simp [hz]
    · rw [if_neg hz]
      have hag : 0 ≤ avgGainOf values period :=
        wilderAvg_nonneg period hp _ (gainsOf_nonneg values)
      have hal0 : 0 ≤ avgLossOf values period :=
        wilderAvg_nonneg period hp _ (lossesOf_nonneg values)
      have hal : 0 < avgLossOf values period := lt_of_le_of_ne hal0 (Ne.symm hz)
      have hrs : 0 ≤ avgGainOf values period / avgLossOf values period :=
        div_nonneg hag hal.le
      have h1 : (1 : ℚ) ≤ 1 + avgGainOf values period / avgLossOf values period := by
        linarith
      have hx1 : 100 / (1 + avgGainOf values period / avgLossOf values period) ≤ 100 :=
        div_le_self (by norm_num) h1
      have hx0 : 0 < 100 / (1 + avgGainOf values period / avgLossOf values period) :=
        div_pos (by norm_num) (by linarith)
      refine ⟨⟨by linarith, by linarith⟩, fun hz' => absurd hz' hz, fun hd => ?_⟩
      have : avgLossOf values period = 0 :=
        wilderAvg_zeros period _ (lossesOf_zeros_of_diffs_nonneg values hd)
      exact absurd this hz

/-- C6 (witness): fifteen strictly increasing values with `period = 14` —
`rsi? = some 100` and the theorem's conclusions are delivered. -/
theorem rsi_bounded_witness :
    (0 ≤ (100 : ℚ) ∧ (100 : ℚ) ≤ 100) ∧ (avgLossOf c6Vals 14 = 0 → (100 : ℚ) = 100) ∧
      ((∀ d ∈ diffsOf c6Vals, 0 ≤ d) → (100 : ℚ) = 100) :=
  rsi_bounded_and_zero_loss c6Vals 14 100 (by decide)

/-- C7 (counterexample): `rsi([1,2,3], period=1)` raises although the
claim's condition `len(values) < period + 1` is false there (the code also
rejects `period ≤ 1`). -/
theorem indicator_guard_counterexample :
    rsi? [1, 2, 3] 1 = none ∧ ¬ (([1, 2, 3] : List ℚ).length < 1 + 1) :=
  ⟨by decide, by decide⟩

/-- C7 (amended): each indicator fails exactly on its guard — `ema` when
`period ≤ 1` or `len < period`; `rsi` when `period ≤ 1` OR
`len < period + 1`; `atr` when `period ≤ 1` OR the arrays differ in length
or are shorter than `period + 1`; `sma` exactly on empty input;
`pct_change` exactly when `start = 0`; and `std` returns 0 (total, no
failure) for fewer than 2 values. -/
theorem indicator_guards (values highs lows closes svals : List ℚ) (period : ℕ) (s e : ℚ) :
    (ema? values period = none ↔ period ≤ 1 ∨ values.length < period) ∧
    (rsi? values period = none ↔ period ≤ 1 ∨ values.length < period + 1) ∧
    (atr? highs lows closes period = none ↔ period ≤ 1 ∨ highs.length ≠ lows.length ∨
      lows.length ≠ closes.length ∨ highs.length < period + 1) ∧
    (sma? svals = none ↔ svals = []) ∧
    (pctChange? s e = none ↔ s = 0) ∧
    (svals.length < 2 → std svals = 0) := by
  refine ⟨?_, ?_, ?_, ?_, ?_, ?_⟩
  · exact ite_none_iff _ _
  · exact ite_none_iff _ _
  · exact ite_none_iff _ _
  · exact ite_none_iff _ _
  · exact ite_none_iff _ _
  · intro hlen
    simp [std, hlen]

/-- C7 (witness): the amended guard equivalences instantiated at concrete
inputs. -/
theorem indicator_guards_witness :
    (ema? [1, 2] 3 = none ↔ (3 : ℕ) ≤ 1 ∨ ([1, 2] : List ℚ).length < 3) ∧
    (rsi? [1, 2] 3 = none ↔ (3 : ℕ) ≤ 1 ∨ ([1, 2] : List ℚ).length < 3 + 1) ∧
    (atr? [1] [1] [1] 3 = none ↔ (3 : ℕ) ≤ 1 ∨ ([1] : List ℚ).length ≠ ([1] : List ℚ).length ∨
      ([1] : List ℚ).length ≠ ([1] : List ℚ).length ∨ ([1] : List ℚ).length < 3 + 1) ∧
    (sma? [] = none ↔ ([] : List ℚ) = []) ∧
    (pctChange? 0 5 = none ↔ (0 : ℚ) = 0) ∧
    (([] : List ℚ).length < 2 → std [] = 0) :=
  indicator_guards [1, 2] [1] [1] [1] [] 3 0 5

/-- C8: a scheduler job never fires twice for one dedupe key: along any
trace of `_try_run` invocations a fixed key fires at most once; the key is
recorded in `seen` before the job body runs (it is present afterwards even
when the body raises); and the concrete scenario holds — Monday ticks at
09:20 and 09:21 with `monitor_interval_seconds = 300` share bucket
1000000, so the monitor job fires on the first tick and not on the second. -/
theorem scheduler_dedupe_single_fire :
    (∀ (st : SchedState) (calls : List TryCall) (k : String),
      (runTrace st calls).count k ≤ 1) ∧
    (∀ (st : SchedState) (job key now msg : String), ¬ key ∈ st.seen →
      key ∈ ((tryRun st job key true (JobOutcome.err msg) now).1).seen) ∧
    ((tick (initScheduler 20 300) schedState0 c8Tick1).2 =
        [("monitor", "monitor:1000000")] ∧
      (tick (initScheduler 20 300) (tick (initScheduler 20 300) schedState0 c8Tick1).1
          c8Tick2).2 = []) := by
  refine ⟨?_, ?_, ?_, ?_⟩
  · intro st calls k
    exact runTrace_count_le_one st calls k
  · intro st job key now msg hk
    have hc : ¬ (st.seen.contains key || !true) = true := by simp [hk]
    unfold tryRun
    rw [if_neg hc]
    exact List.mem_cons_self _ _
  · decide
  · decide

/-- C8 (witness): recording-before-execution instantiated — a failing job
body still leaves its dedupe key in the seen-set. -/
theorem scheduler_dedupe_witness :
    "k1" ∈ ((tryRun schedState0 "jobA" "k1" true (JobOutcome.err "boom") "T0").1).seen :=
  scheduler_dedupe_single_fire.2.1 schedState0 "jobA" "k1" "T0" "boom" (by decide)

/-- C9: applying a fill to a symbol that already has a stored `Position`
leaves either no entry for the symbol (in the in-memory store AND the
persistence table — exactly when the new signed quantity is ≤ 0) or a
position with strictly positive quantity and the recomputed
volume-weighted average price. -/
theorem apply_fill_no_flat_position (st : FillState) (fill : Fill) (existing : Position)
    (h : lookupA st.positions fill.symbol = some existing) :
    (lookupA (applyFill st fill).positions fill.symbol = none ∧
     lookupA (applyFill st fill).pPositions fill.symbol = none ∧
     existing.qty + signedQty fill ≤ 0) ∨
    (∃ p : Position,
      lookupA (applyFill st fill).positions fill.symbol = some p ∧
      lookupA (applyFill st fill).pPositions fill.symbol = some p ∧
      0 < p.qty ∧ p.qty = existing.qty + signedQty fill ∧
      p.avg_price = (existing.avg_price * (existing.qty : ℚ) +
        fill.price * ((signedQty fill : ℤ) : ℚ)) / (((existing.qty + signedQty fill : ℤ)) : ℚ)) := by
  unfold applyFill
  dsimp only
  rw [h]
  dsimp only
  by_cases hq : existing.qty + signedQty fill ≤ 0
  · left
    rw [if_pos hq]
    exact ⟨lookupA_eraseA_self _ _, lookupA_eraseA_self _ _, hq⟩
  · right
    rw [if_neg hq]
    refine ⟨⟨fill.symbol, existing.qty + signedQty fill,
      (existing.avg_price * (existing.qty : ℚ) + fill.price * ((signedQty fill : ℤ) : ℚ)) /
        (((existing.qty + signedQty fill : ℤ)) : ℚ)⟩,
      lookupA_upsertA_self _ _ _, lookupA_upsertA_self _ _ _,
      by show 0 < existing.qty + signedQty fill; omega, rfl, rfl⟩

/-- C9 (witness): a full-quantity stop-out SELL of a 10-share position —
the symbol disappears from both maps. -/
theorem apply_fill_witness :
    (lookupA (applyFill ⟨[("W", ⟨"W", 10, 100⟩)], [("W", ⟨"W", 10, 100⟩)], []⟩
        ⟨"O1", "W", Side.SELL, 10, 95, "t"⟩).positions "W" = none ∧
     lookupA (applyFill ⟨[("W", ⟨"W", 10, 100⟩)], [("W", ⟨"W", 10, 100⟩)], []⟩
        ⟨"O1", "W", Side.SELL, 10, 95, "t"⟩).pPositions "W" = none ∧
     (Position.mk "W" 10 100).qty + signedQty ⟨"O1", "W", Side.SELL, 10, 95, "t"⟩ ≤ 0) ∨
    (∃ p : Position,
      lookupA (applyFill ⟨[("W", ⟨"W", 10, 100⟩)], [("W", ⟨"W", 10, 100⟩)], []⟩
        ⟨"O1", "W", Side.SELL, 10, 95, "t"⟩).positions "W" = some p ∧
      lookupA (applyFill ⟨[("W", ⟨"W", 10, 100⟩)], [("W", ⟨"W", 10, 100⟩)], []⟩
        ⟨"O1", "W", Side.SELL, 10, 95, "t"⟩).pPositions "W" = some p ∧
      0 < p.qty ∧
      p.qty = (Position.mk "W" 10 100).qty + signedQty ⟨"O1", "W", Side.SELL, 10, 95, "t"⟩ ∧
      p.avg_price = ((Position.mk "W" 10 100).avg_price * (((Position.mk "W" 10 100).qty : ℤ) : ℚ) +
        (Fill.mk "O1" "W" Side.SELL 10 95 "t").price *
          ((signedQty ⟨"O1", "W", Side.SELL, 10, 95, "t"⟩ : ℤ) : ℚ)) /
        ((((Position.mk "W" 10 100).qty + signedQty ⟨"O1", "W", Side.SELL, 10, 95, "t"⟩ : ℤ)) : ℚ)) :=
  apply_fill_no_flat_position ⟨[("W", ⟨"W", 10, 100⟩)], [("W", ⟨"W", 10, 100⟩)], []⟩
    ⟨"O1", "W", Side.SELL, 10, 95, "t"⟩ ⟨"W", 10, 100⟩ (by decide)

/-- C10: in `_try_run`, when the job body returns normally the job's
last-run timestamp is recorded and any previous last-error entry for the
job is removed; when the body raises, the message is recorded as the job's
last-error and `last_runs` is left unchanged. -/
theorem tryrun_outcome_recording (st : SchedState) (job key now msg : String)
    (hk : ¬ key ∈ st.seen) :
    ((tryRun st job key true JobOutcome.ok now).2 = true ∧
     lookupA (tryRun st job key true JobOutcome.ok now).1.last_runs job = some now ∧
     lookupA (tryRun st job key true JobOutcome.ok now).1.last_errors job = none) ∧
    ((tryRun st job key true (JobOutcome.err msg) now).2 = true ∧
     (tryRun st job key true (JobOutcome.err msg) now).1.last_runs = st.last_runs ∧
     lookupA (tryRun st job key true (JobOutcome.err msg) now).1.last_errors job = some msg) := by
  have hc : ¬ (st.seen.contains key || !true) = true := by
    simp [hk]
  constructor
  · unfold tryRun
    rw [if_neg hc]
    exact ⟨rfl, lookupA_upsertA_self _ _ _, lookupA_eraseA_self _ _⟩
  · unfold tryRun
    rw [if_neg hc]
    exact ⟨rfl, rfl, lookupA_upsertA_self _ _ _⟩

/-- C10 (witness): concrete success and failure recordings from a fresh
scheduler state. -/
theorem tryrun_outcome_witness :
    ((tryRun schedState0 "jobB" "k2" true JobOutcome.ok "T3").2 = true ∧
     lookupA (tryRun schedState0 "jobB" "k2" true JobOutcome.ok "T3").1.last_runs "jobB" =
       some "T3" ∧
     lookupA (tryRun schedState0 "jobB" "k2" true JobOutcome.ok "T3").1.last_errors "jobB" =
       none) ∧
    ((tryRun schedState0 "jobB" "k2" true (JobOutcome.err "nope") "T3").2 = true ∧
     (tryRun schedState0 "jobB" "k2" true (JobOutcome.err "nope") "T3").1.last_runs =
       schedState0.last_runs ∧
     lookupA (tryRun schedState0 "jobB" "k2" true (JobOutcome.err "nope") "T3").1.last_errors
       "jobB" = some "nope") :=
  tryrun_outcome_recording schedState0 "jobB" "k2" "T3" "nope" (by decide)
